import Mathlib

/-!
A shallow embedding of the notes-app core (`src/app/main.py`): tag
normalization, note lifecycle (create/update/archive/unarchive/share/purge),
history recording, attachment upload/download with a streaming size
ceiling, and the filtered note listing.

Text is modelled as `List Char` (`Str`), Python's `str`.  The relational
store and the upload directory are one explicit `Store` value threaded
through the operations.  Nondeterministic inputs of the code — `uuid4()`
tokens, the clock, and whether a database commit succeeds — are explicit
parameters of the operations that use them.  The configured upload size
ceiling `MAX_UPLOAD_SIZE` is likewise a parameter (`limit`), since it is
read from the environment.
-/

namespace NotesApp

/-- Strings are modelled as lists of characters. -/
abbrev Str := List Char

/-- Convert a Lean string literal to the character-list model. -/
def str (s : String) : Str := s.data

/-- Characters removed by Python `str.strip()` (ASCII whitespace). -/
def isPySpace (c : Char) : Bool :=
  c = ' ' || c = '\t' || c = '\n' || c = '\r' || c = '\x0b' || c = '\x0c'

/-- Python `s.strip()`: drop leading and trailing whitespace. -/
def pyStrip (s : Str) : Str :=
  ((s.dropWhile isPySpace).reverse.dropWhile isPySpace).reverse

/-- Python `s.lower()` (ASCII model). -/
def pyLower (s : Str) : Str := s.map Char.toLower

/-- Python `s.split(",")`: split on every comma; always at least one
segment, empty segments kept (`"".split(",") == [""]`). -/
def splitComma : Str → List Str
  | [] => [[]]
  | c :: rest =>
    match splitComma rest with
    | [] => [[]]
    | seg :: segs => if c = ',' then [] :: seg :: segs else (c :: seg) :: segs

/-- Python `",".join(parts)`. -/
def joinComma : List Str → Str
  | [] => []
  | [t] => t
  | t :: ts => t ++ ',' :: joinComma ts

/-- The loop of `normalize_tags` (main.py lines 154-166): per raw tag,
strip then lowercase, drop empties, dedupe keeping first occurrence;
`seen` is the set of tags already emitted. -/
def normalizeFrom (seen : List Str) : List Str → List Str
  | [] => []
  | raw :: rest =>
    let tag := pyLower (pyStrip raw)
    if tag = [] then normalizeFrom seen rest
    else if tag ∈ seen then normalizeFrom seen rest
    else tag :: normalizeFrom (tag :: seen) rest

/-- `normalize_tags` (main.py lines 154-166).  The Python `None` argument
collapses to the empty list. -/
def normalize_tags (tags : List Str) : List Str := normalizeFrom [] tags

/-- `serialize_tags` (main.py lines 169-170). -/
def serialize_tags (tags : List Str) : Str := joinComma (normalize_tags tags)

/-- `parse_tags` (main.py lines 173-176).  `None` collapses to `[]`,
which the falsy test already sends to `[]`. -/
def parse_tags (tags_text : Str) : List Str :=
  if tags_text = [] then []
  else (splitComma tags_text).filter (· ≠ [])

/-! ## Data model (main.py lines 71-105) and the store

One `Store` value models the relational database (three tables with their
auto-increment counters) together with the upload directory (a list of
on-disk blobs keyed by `storage_name`; `open("wb")` overwrites, so a
write first drops any blob of the same name). -/

/-- `Note` ORM row (main.py lines 71-80). -/
structure Note where
  id : Nat
  title : Str
  body : Str
  tags_text : Str
  pinned : Bool
  archived : Bool
  share_token : Option Str
deriving DecidableEq, Repr

/-- `Attachment` ORM row (main.py lines 83-91). -/
structure Attachment where
  id : Nat
  note_id : Nat
  filename : Str
  storage_name : Str
  content_type : Str
  size_bytes : Nat
deriving DecidableEq, Repr

/-- `NoteHistory` ORM row (main.py lines 94-105). -/
structure NoteHistory where
  id : Nat
  note_id : Nat
  action : Str
  title : Str
  body : Str
  tags_text : Str
  pinned : Bool
  archived : Bool
  created_at : Str
deriving DecidableEq, Repr

/-- An on-disk blob: storage name and content (bytes as naturals). -/
structure Blob where
  name : Str
  content : List Nat
deriving DecidableEq, Repr

/-- The database (rows plus auto-increment counters) and the upload
directory. -/
structure Store where
  notes : List Note
  attachments : List Attachment
  history : List NoteHistory
  blobs : List Blob
  next_note_id : Nat
  next_attachment_id : Nat
  next_history_id : Nat
deriving DecidableEq, Repr

/-- Errors surfaced by the handlers: `notFound` is HTTP 404,
`invalidInput` 400 (empty filename), `payloadTooLarge` 413, and
`storageFailure` a propagated database/commit exception. -/
inductive ApiErr where
  | notFound
  | invalidInput
  | payloadTooLarge
  | storageFailure
deriving DecidableEq, Repr

/-- `NoteOut` response model (main.py lines 115-119). -/
structure NoteOut where
  id : Nat
  title : Str
  body : Str
  tags : List Str
  pinned : Bool
  archived : Bool
  share_url : Option Str
deriving DecidableEq, Repr

/-- `NoteHistoryOut` response model (main.py lines 132-141). -/
structure NoteHistoryOut where
  id : Nat
  note_id : Nat
  action : Str
  title : Str
  body : Str
  tags : List Str
  pinned : Bool
  archived : Bool
  created_at : Str
deriving DecidableEq, Repr

/-- `db.get(Note, note_id)`: primary-key lookup.  `id` is the primary
key, so at most one row matches and `find?` models the lookup. -/
def findNote (s : Store) (note_id : Nat) : Option Note :=
  s.notes.find? (fun n => n.id = note_id)

/-- `db.get(Attachment, attachment_id)`: primary-key lookup. -/
def findAttachment (s : Store) (attachment_id : Nat) : Option Attachment :=
  s.attachments.find? (fun a => a.id = attachment_id)

/-- Committing field assignments on a fetched ORM row: replace the row
with the same primary key. -/
def setNote (notes : List Note) (u : Note) : List Note :=
  notes.map (fun m => if m.id = u.id then u else m)

/-- Python truthiness of the optional `share_token`: `None` and the empty
string are falsy. -/
def tokenTruthy : Option Str → Bool
  | none => false
  | some t => t ≠ []

/-- `to_note_out` (main.py lines 179-189): `share_url` is set only when
`share_token` is truthy. -/
def to_note_out (note : Note) : NoteOut :=
  { id := note.id
    title := note.title
    body := note.body
    tags := parse_tags note.tags_text
    pinned := note.pinned
    archived := note.archived
    share_url :=
      match note.share_token with
      | none => none
      | some t => if t = [] then none else some (str "/share/" ++ t) }

/-- Projection of a history row into `NoteHistoryOut`
(main.py lines 455-468). -/
def history_out (h : NoteHistory) : NoteHistoryOut :=
  { id := h.id
    note_id := h.note_id
    action := h.action
    title := h.title
    body := h.body
    tags := parse_tags h.tags_text
    pinned := h.pinned
    archived := h.archived
    created_at := h.created_at }

/-- `record_note_history` (main.py lines 192-204): append a snapshot of
the note's current fields; the row id is assigned by the database at
commit (`now` is the `datetime.now(timezone.utc).isoformat()` string). -/
def record_note_history (s : Store) (note : Note) (action : Str) (now : Str) :
    Store :=
  { s with
    history := s.history ++
      [{ id := s.next_history_id
         note_id := note.id
         action := action
         title := note.title
         body := note.body
         tags_text := note.tags_text
         pinned := note.pinned
         archived := note.archived
         created_at := now }]
    next_history_id := s.next_history_id + 1 }

/-- `create_note` (main.py lines 281-293). -/
def create_note (title body : Str) (tags : List Str) (pinned : Bool)
    (s : Store) : NoteOut × Store :=
  let n : Note :=
    { id := s.next_note_id
      title := title
      body := body
      tags_text := serialize_tags tags
      pinned := pinned
      archived := false
      share_token := none }
  (to_note_out n, { s with notes := s.notes ++ [n], next_note_id := s.next_note_id + 1 })

/-- `update_note` (main.py lines 396-408): record history from the
pre-mutation row, then overwrite title/body/tags/pinned. -/
def update_note (note_id : Nat) (title body : Str) (tags : List Str)
    (pinned : Bool) (now : Str) (s : Store) : Except ApiErr NoteOut × Store :=
  match findNote s note_id with
  | none => (.error .notFound, s)
  | some existing =>
    let s' := record_note_history s existing (str "update") now
    let updated :=
      { existing with
        title := title
        body := body
        tags_text := serialize_tags tags
        pinned := pinned }
    (.ok (to_note_out updated), { s' with notes := setNote s'.notes updated })

/-- `archive_note` (main.py lines 411-421): when not already archived,
record history from the pre-mutation row and set `archived := true`. -/
def archive_note (note_id : Nat) (now : Str) (s : Store) :
    Except ApiErr NoteOut × Store :=
  match findNote s note_id with
  | none => (.error .notFound, s)
  | some existing =>
    if existing.archived then (.ok (to_note_out existing), s)
    else
      let s' := record_note_history s existing (str "archive") now
      let updated := { existing with archived := true }
      (.ok (to_note_out updated), { s' with notes := setNote s'.notes updated })

/-- `unarchive_note` (main.py lines 424-434). -/
def unarchive_note (note_id : Nat) (now : Str) (s : Store) :
    Except ApiErr NoteOut × Store :=
  match findNote s note_id with
  | none => (.error .notFound, s)
  | some existing =>
    if existing.archived then
      let s' := record_note_history s existing (str "unarchive") now
      let updated := { existing with archived := false }
      (.ok (to_note_out updated), { s' with notes := setNote s'.notes updated })
    else (.ok (to_note_out existing), s)

/-- The token-assignment branch of `share_note`: set
`share_token := tok` (the fresh `uuid4().hex`) and return its URL. -/
def shareAssign (tok : Str) (existing : Note) (s : Store) :
    Except ApiErr (Nat × Str) × Store :=
  let updated := { existing with share_token := some tok }
  (.ok (existing.id, str "/share/" ++ tok),
   { s with notes := setNote s.notes updated })

/-- `share_note` (main.py lines 437-446): `if not existing.share_token`
is Python-falsy, so `None` and the empty string both trigger assignment.
The result pair is the `ShareOut` model (note_id, share_url). -/
def share_note (tok : Str) (note_id : Nat) (s : Store) :
    Except ApiErr (Nat × Str) × Store :=
  match findNote s note_id with
  | none => (.error .notFound, s)
  | some existing =>
    match existing.share_token with
    | none => shareAssign tok existing s
    | some t =>
      if t = [] then shareAssign tok existing s
      else (.ok (existing.id, str "/share/" ++ t), s)

/-- `ORDER BY NoteHistory.id DESC`. -/
def HistLE (a b : NoteHistory) : Prop := b.id ≤ a.id

instance : DecidableRel HistLE := fun a b => by unfold HistLE; infer_instance

/-- `get_note_history` (main.py lines 449-468): 404 when the note is
absent, else the note's history rows ordered newest id first. -/
def get_note_history (note_id : Nat) (s : Store) :
    Except ApiErr (List NoteHistoryOut) :=
  match findNote s note_id with
  | none => .error .notFound
  | some _ =>
    .ok (((s.history.filter (fun h => h.note_id = note_id)).insertionSort
      HistLE).map history_out)

/-! ## Query service (main.py lines 261-278) -/

/-- Try a predicate on every suffix of a string (including the string
itself and the empty suffix). -/
def tryTails (f : Str → Bool) : Str → Bool
  | [] => f []
  | c :: cs => f (c :: cs) || tryTails f cs

/-- SQL `LIKE` pattern matching (anchored): `%` matches any sequence —
realized by matching the rest of the pattern against every suffix —
`_` any single character, anything else itself.  PostgreSQL semantics
(case-sensitive); SQLite's default `LIKE` is additionally
ASCII-case-insensitive, an engine difference the spec leaves open
("case-sensitive-or-not"). -/
def likeMatch : Str → Str → Bool
  | [] => fun s => s.isEmpty
  | p :: ps =>
    let rest := likeMatch ps
    if p = '%' then tryTails rest
    else fun s =>
      match s with
      | [] => false
      | c :: cs => if p = '_' then rest cs else decide (p = c) && rest cs

/-- The `search` WHERE clause (main.py lines 269-271): skipped when
`search` is absent or empty (Python falsy), else an anchored `LIKE`
against `%search.strip()%` on title, body, or the serialized tag text. -/
def searchFilter (search : Option Str) (notes : List Note) : List Note :=
  match search with
  | none => notes
  | some q =>
    if q = [] then notes
    else
      let term := '%' :: pyStrip q ++ ['%']
      notes.filter (fun n =>
        likeMatch term n.title || likeMatch term n.body ||
          likeMatch term n.tags_text)

/-- The `include_archived` WHERE clause (main.py lines 272-273). -/
def archivedFilter (include_archived : Bool) (notes : List Note) : List Note :=
  if include_archived then notes else notes.filter (fun n => n.archived = false)

/-- The Python-side tag narrowing (main.py lines 275-277): skipped when
`tag` is absent or empty, else keep notes whose parsed tag list contains
`tag.strip().lower()`. -/
def tagFilter (tag : Option Str) (notes : List Note) : List Note :=
  match tag with
  | none => notes
  | some t =>
    if t = [] then notes
    else
      let wanted := pyLower (pyStrip t)
      notes.filter (fun n => wanted ∈ parse_tags n.tags_text)

/-- `ORDER BY Note.pinned DESC, Note.id DESC`: pinned rows first, newer
ids first within each group. -/
def NoteLE (a b : Note) : Prop :=
  (a.pinned = true ∧ b.pinned = false) ∨ (a.pinned = b.pinned ∧ b.id ≤ a.id)

instance : DecidableRel NoteLE := fun a b => by unfold NoteLE; infer_instance

/-- `list_notes` (main.py lines 261-278), down to the row level: the SQL
query (search and archived WHERE clauses, then ORDER BY), then the
Python tag narrowing on the returned rows. -/
def list_notes_rows (search tag : Option Str) (include_archived : Bool)
    (s : Store) : List Note :=
  tagFilter tag
    ((archivedFilter include_archived (searchFilter search s.notes)).insertionSort
      NoteLE)

/-- `list_notes` (main.py lines 261-278): the rows, serialized. -/
def list_notes (search tag : Option Str) (include_archived : Bool)
    (s : Store) : List NoteOut :=
  (list_notes_rows search tag include_archived s).map to_note_out

/-! ## Attachment store (main.py lines 296-393, 507-521) -/

/-- `os.path.basename` (POSIX): the part after the last `/`. -/
def basename (p : Str) : Str := (p.reverse.takeWhile (fun c => c ≠ '/')).reverse

/-- `destination.unlink()` (and the no-op when the file is absent). -/
def blobDelete (blobs : List Blob) (name : Str) : List Blob :=
  blobs.filter (fun b => b.name ≠ name)

/-- `destination.open("wb")` followed by a complete write: overwrite any
existing file of that name. -/
def blobWrite (blobs : List Blob) (name : Str) (content : List Nat) :
    List Blob :=
  blobDelete blobs name ++ [{ name := name, content := content }]

/-- The streaming loop of `upload_attachment` (main.py lines 310-318):
read chunks until an empty read, accumulate `size_bytes`, and raise 413
(carrying the bytes already on disk, which the handler then unlinks) the
instant the running count exceeds the ceiling — the oversized chunk is
never written. -/
def stream_loop (limit size : Nat) (written : List Nat) :
    List (List Nat) → Except (List Nat) (Nat × List Nat)
  | [] => .ok (size, written)
  | chunk :: rest =>
    if chunk = [] then .ok (size, written)
    else if limit < size + chunk.length then .error written
    else stream_loop limit (size + chunk.length) (written ++ chunk) rest

/-- `upload_attachment` (main.py lines 296-348).  `limit` is
`MAX_UPLOAD_SIZE`, `tok` the `uuid4().hex`, `chunks` the successive
`file.file.read(1024*1024)` results, and `commitOk` whether the metadata
commit succeeds.  On 413 the handler unlinks the partial file; on a
failed commit it unlinks the complete blob before propagating.  (The
HTTP `AttachmentOut` with its `download_url` is a projection of the
returned row, out of scope.) -/
def upload_attachment (limit : Nat) (tok : Str) (commitOk : Bool)
    (note_id : Nat) (filename content_type : Str) (chunks : List (List Nat))
    (s : Store) : Except ApiErr Attachment × Store :=
  match findNote s note_id with
  | none => (.error .notFound, s)
  | some _ =>
    let original_name := basename filename
    if original_name = [] then (.error .invalidInput, s)
    else
      let storage_name := tok ++ '-' :: original_name
      match stream_loop limit 0 [] chunks with
      | .error _ =>
        (.error .payloadTooLarge, { s with blobs := blobDelete s.blobs storage_name })
      | .ok (size_bytes, content) =>
        let s' := { s with blobs := blobWrite s.blobs storage_name content }
        if commitOk then
          let att : Attachment :=
            { id := s'.next_attachment_id
              note_id := note_id
              filename := original_name
              storage_name := storage_name
              content_type :=
                if content_type = [] then str "application/octet-stream"
                else content_type
              size_bytes := size_bytes }
          (.ok att,
           { s' with
             attachments := s'.attachments ++ [att]
             next_attachment_id := s'.next_attachment_id + 1 })
        else (.error .storageFailure, { s' with blobs := blobDelete s'.blobs storage_name })

/-- `download_attachment` (main.py lines 370-380): 404 when the row is
missing, 404 when the blob is missing on disk, otherwise the file
content, media type, and display filename. -/
def download_attachment (attachment_id : Nat) (s : Store) :
    Except ApiErr (List Nat × Str × Str) :=
  match findAttachment s attachment_id with
  | none => .error .notFound
  | some item =>
    match s.blobs.find? (fun b => b.name = item.storage_name) with
    | none => .error .notFound
    | some b =>
      .ok (b.content,
        (if item.content_type = [] then str "application/octet-stream"
         else item.content_type),
        item.filename)

/-- `purge_note` (main.py lines 507-521): 404 when absent; else unlink
every blob of the note's attachments, delete the note's attachment rows,
delete the note's history rows, delete the note row. -/
def purge_note (note_id : Nat) (s : Store) : Except ApiErr Nat × Store :=
  match findNote s note_id with
  | none => (.error .notFound, s)
  | some existing =>
    let names :=
      (s.attachments.filter (fun a => a.note_id = note_id)).map
        (fun a => a.storage_name)
    (.ok note_id,
     { s with
       notes := s.notes.filter (fun n => n.id ≠ existing.id)
       attachments := s.attachments.filter (fun a => a.note_id ≠ note_id)
       history := s.history.filter (fun h => h.note_id ≠ note_id)
       blobs := s.blobs.filter (fun b => b.name ∉ names) })

/-- `startsWith n h`: `n` is an initial segment of `h`. -/
def startsWith : Str → Str → Bool
  | [], _ => true
  | _ :: _, [] => false
  | a :: as, b :: bs => decide (a = b) && startsWith as bs

/-- Substring containment (the spec's "contains the search string as a
substring"), used to compare the search filter against the spec's words:
`containsSub n h` iff `n` occurs contiguously in `h`. -/
def containsSub (n : Str) : Str → Bool
  | [] => n.isEmpty
  | c :: t => startsWith n (c :: t) || containsSub n t

/-- The bytes on disk in a streaming outcome: the partial write carried
by a 413, or the completed write. -/
def writtenOf : Except (List Nat) (Nat × List Nat) → List Nat
  | .error w => w
  | .ok (_, w) => w

/-! ## Concrete fixtures used by the witnesses and counterexamples -/

/-- A store with no rows. -/
def emptyStore : Store := ⟨[], [], [], [], 1, 1, 1⟩

/-- An archived, unshared note with id 1. -/
def noteArch : Note :=
  { id := 1, title := str "t", body := str "b", tags_text := str "ops",
    pinned := false, archived := true, share_token := none }

/-- The same note, active. -/
def noteAct : Note := { noteArch with archived := false }

/-- A store holding only `noteArch`. -/
def storeArch : Store := { emptyStore with notes := [noteArch], next_note_id := 2 }

/-- A store holding only `noteAct`. -/
def storeAct : Store := { emptyStore with notes := [noteAct], next_note_id := 2 }

/-- A note none of whose text fields contains the character `%`. -/
def noteHay : Note :=
  { id := 1, title := str "a", body := str "b", tags_text := [],
    pinned := false, archived := false, share_token := none }

/-- A store holding only `noteHay`. -/
def storeHay : Store := { emptyStore with notes := [noteHay], next_note_id := 2 }

/-- A second, pinned note with id 2. -/
def notePre : Note :=
  { id := 2, title := str "u", body := str "v", tags_text := [],
    pinned := true, archived := false, share_token := none }

/-- An attachment of note 1. -/
def attPurge : Attachment :=
  { id := 1, note_id := 1, filename := str "f", storage_name := str "sn",
    content_type := str "ct", size_bytes := 1 }

/-- An attachment of note 2. -/
def attKeep : Attachment :=
  { id := 2, note_id := 2, filename := str "g", storage_name := str "sm",
    content_type := str "ct", size_bytes := 1 }

/-- A history row of note 1. -/
def histPurge : NoteHistory :=
  { id := 1, note_id := 1, action := str "update", title := str "t",
    body := str "b", tags_text := [], pinned := false, archived := false,
    created_at := str "c" }

/-- A store with two notes, one attachment and blob each, and a history
row for note 1 — for exercising purge. -/
def storePurge : Store :=
  { notes := [noteAct, notePre]
    attachments := [attPurge, attKeep]
    history := [histPurge]
    blobs := [{ name := str "sn", content := [7] },
              { name := str "sm", content := [8] }]
    next_note_id := 3, next_attachment_id := 3, next_history_id := 2 }

/-! ## Lemmas about comma splitting and joining, used for the tag
round-trip property. -/

theorem splitComma_ne_nil (s : Str) : splitComma s ≠ [] := by
  cases s with
  | nil => simp [splitComma]
  | cons c rest =>
    simp only [splitComma]
    cases splitComma rest with
    | nil => simp
    | cons seg segs => by_cases hc : c = ',' <;> simp [hc]

theorem joinComma_cons_cons (a b : Str) (l : List Str) :
    joinComma (a :: b :: l) = a ++ ',' :: joinComma (b :: l) := rfl

theorem joinComma_splitComma (s : Str) : joinComma (splitComma s) = s := by
  induction s with
  | nil => simp [splitComma, joinComma]
  | cons c rest ih =>
    simp only [splitComma]
    cases h : splitComma rest with
    | nil => exact absurd h (splitComma_ne_nil rest)
    | cons seg segs =>
      rw [h] at ih
      by_cases hc : c = ','
      · subst hc
        simp [joinComma_cons_cons, ih]
      · simp only [if_neg hc]
        cases segs with
        | nil => simpa [joinComma] using congrArg (c :: ·) ih
        | cons b l =>
          rw [joinComma_cons_cons] at ih ⊢
          simpa using congrArg (c :: ·) ih

theorem normalizeFrom_fixed (parts : List Str) :
    ∀ seen : List Str,
      (∀ p ∈ parts, p ≠ [] ∧ pyLower (pyStrip p) = p) → parts.Nodup →
      (∀ p ∈ parts, p ∉ seen) → normalizeFrom seen parts = parts := by
  induction parts with
  | nil => intro seen _ _ _; rfl
  | cons raw rest ih =>
    intro seen hfix hnodup hseen
    obtain ⟨hraw_ne, hraw_fix⟩ := hfix raw (by simp)
    have hnodup' := hnodup
    simp only [List.nodup_cons] at hnodup'
    simp only [normalizeFrom, hraw_fix, if_neg hraw_ne,
      if_neg (hseen raw (by simp))]
    refine congrArg (raw :: ·) (ih (raw :: seen) ?_ hnodup'.2 ?_)
    · intro p hp; exact hfix p (by simp [hp])
    · intro p hp
      simp only [List.mem_cons, not_or]
      exact ⟨fun hpr => hnodup'.1 (hpr ▸ hp), hseen p (by simp [hp])⟩

/-- C9, counterexample: `"a,a"` is a comma-joined string of lowercase,
nonempty (indeed fully normalized) tag segments, yet
`serialize_tags (parse_tags "a,a") = "a" ≠ "a,a"`: the normalizer inside
`serialize_tags` deduplicates, so the round trip fails on duplicate
segments. -/
theorem c9_tag_roundtrip_cex :
    (∀ p ∈ splitComma (str "a,a"), p ≠ [] ∧ pyLower (pyStrip p) = p) ∧
    serialize_tags (parse_tags (str "a,a")) ≠ str "a,a" := by decide

/-- C9, amended: for every comma-joined tag string whose segments are all
nonempty, already normalized (trimmed and lowercase), and pairwise
distinct, `serialize_tags (parse_tags s) = s`. -/
theorem c9_tag_roundtrip (s : Str)
    (hseg : ∀ p ∈ splitComma s, p ≠ [] ∧ pyLower (pyStrip p) = p)
    (hdup : (splitComma s).Nodup) :
    serialize_tags (parse_tags s) = s := by
  by_cases hs : s = []
  · subst hs; rfl
  · have hfilter : (splitComma s).filter (· ≠ []) = splitComma s := by
      refine List.filter_eq_self.mpr ?_
      intro p hp
      simpa using (hseg p hp).1
    have hnorm : normalize_tags (splitComma s) = splitComma s :=
      normalizeFrom_fixed (splitComma s) [] hseg hdup (by simp)
    simp only [parse_tags, if_neg hs, hfilter, serialize_tags, hnorm,
      joinComma_splitComma]

/-- Witness for `c9_tag_roundtrip` at `s = "ab,c"`. -/
theorem c9_tag_roundtrip_witness :
    serialize_tags (parse_tags (str "ab,c")) = str "ab,c" :=
  c9_tag_roundtrip (str "ab,c") (by decide) (by decide)

/-! ## C5: archive / unarchive are idempotent no-ops -/

/-- C5: for an existing note that is already archived, `archive_note` is
a no-op — it returns the current state unchanged (in particular it adds
no history row) — and symmetrically `unarchive_note` on an active note
changes nothing. -/
theorem c5_archive_unarchive_noop (s : Store) (note_id : Nat) (n : Note)
    (now : Str) (hf : findNote s note_id = some n) :
    (n.archived = true → archive_note note_id now s = (.ok (to_note_out n), s)) ∧
    (n.archived = false → unarchive_note note_id now s = (.ok (to_note_out n), s)) := by
  constructor
  · intro h; simp [archive_note, hf, h]
  · intro h; simp [unarchive_note, hf, h]

/-- Witness for `c5_archive_unarchive_noop`: archiving the already
archived `noteArch` leaves `storeArch` unchanged, and unarchiving the
active `noteAct` leaves `storeAct` unchanged. -/
theorem c5_archive_unarchive_noop_witness :
    archive_note 1 (str "now") storeArch = (.ok (to_note_out noteArch), storeArch) ∧
    unarchive_note 1 (str "now") storeAct = (.ok (to_note_out noteAct), storeAct) :=
  ⟨(c5_archive_unarchive_noop storeArch 1 noteArch (str "now") (by decide)).1 (by decide),
   (c5_archive_unarchive_noop storeAct 1 noteAct (str "now") (by decide)).2 (by decide)⟩

/-! ## C6: share is idempotent -/

theorem find?_setNote (notes : List Note) (i : Nat) (n u : Note)
    (hf : notes.find? (fun m => m.id = i) = some n) (hu : u.id = n.id) :
    (setNote notes u).find? (fun m => m.id = i) = some u := by
  induction notes with
  | nil => simp at hf
  | cons m rest ih =>
    have hni : n.id = i := by simpa using List.find?_some hf
    by_cases hm : m.id = i
    · have hn : n = m := by
        rw [List.find?_cons_of_pos _ (by simpa using hm)] at hf
        exact (Option.some_injective _ hf).symm
      simp only [setNote, List.map_cons, if_pos (by rw [hu, hn] : m.id = u.id)]
      exact List.find?_cons_of_pos _ (by simp [hu, hni])
    · rw [List.find?_cons_of_neg _ (by simpa using hm)] at hf
      have hmu : ¬ m.id = u.id := by rw [hu, hni]; exact hm
      simp only [setNote, List.map_cons, if_neg hmu]
      rw [List.find?_cons_of_neg _ (by simpa using hm)]
      exact ih hf

/-- C6: sharing an existing note twice returns the same share result
both times and does not change the store again: once a (nonempty, as
`uuid4().hex` always is) token is set, `share_note` never rotates it. -/
theorem c6_share_idempotent (s : Store) (note_id : Nat) (n : Note)
    (tok1 tok2 : Str) (hf : findNote s note_id = some n) (h1 : tok1 ≠ []) :
    share_note tok2 note_id (share_note tok1 note_id s).2 =
      ((share_note tok1 note_id s).1, (share_note tok1 note_id s).2) := by
  have hassign : ∀ s₀ : Store, findNote s₀ note_id = some n →
      share_note tok2 note_id (shareAssign tok1 n s₀).2 =
        ((shareAssign tok1 n s₀).1, (shareAssign tok1 n s₀).2) := by
    intro s₀ hf₀
    have hfind : (setNote s₀.notes { n with share_token := some tok1 }).find?
        (fun m => m.id = note_id) = some { n with share_token := some tok1 } :=
      find?_setNote s₀.notes note_id n _ hf₀ rfl
    simp [share_note, shareAssign, findNote, hfind, h1]
  match htok : n.share_token with
  | none => simp only [share_note, hf, htok]; exact hassign s hf
  | some t =>
    by_cases ht : t = []
    · simp only [share_note, hf, htok, if_pos ht]; exact hassign s hf
    · simp [share_note, hf, htok, ht]

/-- Witness for `c6_share_idempotent`: share `noteAct` with token
`"abc"`, then share again. -/
theorem c6_share_idempotent_witness :
    share_note (str "xyz") 1 (share_note (str "abc") 1 storeAct).2 =
      ((share_note (str "abc") 1 storeAct).1, (share_note (str "abc") 1 storeAct).2) :=
  c6_share_idempotent storeAct 1 noteAct (str "abc") (str "xyz") (by decide) (by decide)

/-! ## C4: history is a pre-image log -/

/-- C4: every history row recorded by update/archive/unarchive snapshots
the note's fields from immediately before the mutation; and in the
scenario create → update → archive → unarchive (from an empty store),
the history listed newest-first is exactly
[unarchive, archive, update], where the update entry's snapshot is the
note's state prior to the update call (its create-time fields). -/
theorem c4_history_preimage :
    (∀ (s : Store) (note_id : Nat) (n : Note) (t b : Str) (tags : List Str)
        (p : Bool) (now : Str),
      findNote s note_id = some n →
      ((update_note note_id t b tags p now s).2).history =
        s.history ++
          [{ id := s.next_history_id, note_id := n.id, action := str "update",
             title := n.title, body := n.body, tags_text := n.tags_text,
             pinned := n.pinned, archived := n.archived, created_at := now }]) ∧
    (∀ (s : Store) (note_id : Nat) (n : Note) (now : Str),
      findNote s note_id = some n → n.archived = false →
      ((archive_note note_id now s).2).history =
        s.history ++
          [{ id := s.next_history_id, note_id := n.id, action := str "archive",
             title := n.title, body := n.body, tags_text := n.tags_text,
             pinned := n.pinned, archived := n.archived, created_at := now }]) ∧
    (∀ (s : Store) (note_id : Nat) (n : Note) (now : Str),
      findNote s note_id = some n → n.archived = true →
      ((unarchive_note note_id now s).2).history =
        s.history ++
          [{ id := s.next_history_id, note_id := n.id, action := str "unarchive",
             title := n.title, body := n.body, tags_text := n.tags_text,
             pinned := n.pinned, archived := n.archived, created_at := now }]) ∧
    (∀ (t0 b0 : Str) (tags0 : List Str) (p0 : Bool) (t1 b1 : Str)
        (tags1 : List Str) (p1 : Bool) (now1 now2 now3 : Str),
      get_note_history 1
        ((unarchive_note 1 now3
          ((archive_note 1 now2
            ((update_note 1 t1 b1 tags1 p1 now1
              ((create_note t0 b0 tags0 p0 emptyStore).2)).2)).2)).2) =
        .ok
          [{ id := 3, note_id := 1, action := str "unarchive", title := t1,
             body := b1, tags := parse_tags (serialize_tags tags1),
             pinned := p1, archived := true, created_at := now3 },
           { id := 2, note_id := 1, action := str "archive", title := t1,
             body := b1, tags := parse_tags (serialize_tags tags1),
             pinned := p1, archived := false, created_at := now2 },
           { id := 1, note_id := 1, action := str "update", title := t0,
             body := b0, tags := parse_tags (serialize_tags tags0),
             pinned := p0, archived := false, created_at := now1 }]) := by
  refine ⟨?_, ?_, ?_, ?_⟩
  · intro s note_id n t b tags p now hf
    simp [update_note, hf, record_note_history]
  · intro s note_id n now hf ha
    simp [archive_note, hf, ha, record_note_history]
  · intro s note_id n now hf ha
    simp [unarchive_note, hf, ha, record_note_history]
  · intro t0 b0 tags0 p0 t1 b1 tags1 p1 now1 now2 now3
    rfl

/-- Witness for `c4_history_preimage`: updating `noteAct` in `storeAct`
appends one history row holding its pre-update fields. -/
theorem c4_history_preimage_witness :
    ((update_note 1 (str "t2") (str "b2") [] true (str "now") storeAct).2).history =
      storeAct.history ++
        [{ id := 1, note_id := 1, action := str "update",
           title := noteAct.title, body := noteAct.body,
           tags_text := noteAct.tags_text, pinned := noteAct.pinned,
           archived := noteAct.archived, created_at := str "now" }] :=
  c4_history_preimage.1 storeAct 1 noteAct (str "t2") (str "b2") [] true
    (str "now") (by decide)

/-! ## C7: listing order and filters -/

instance : IsTotal Note NoteLE :=
  ⟨fun a b => by
    unfold NoteLE
    cases hab : a.pinned <;> cases hbb : b.pinned <;> simp [hab, hbb] <;>
      exact Nat.le_total b.id a.id⟩

instance : IsTrans Note NoteLE :=
  ⟨fun a b c hab hbc => by
    unfold NoteLE at *
    rcases hab with ⟨ha, hb⟩ | ⟨hab, hid⟩ <;>
      rcases hbc with ⟨hb', hc⟩ | ⟨hbc', hid'⟩
    · exact Or.inl ⟨ha, hc⟩
    · exact Or.inl ⟨ha, hbc' ▸ hb⟩
    · exact Or.inl ⟨hab.trans hb', hc⟩
    · exact Or.inr ⟨hab.trans hbc', hid'.trans hid⟩⟩

theorem sorted_list_notes_rows (search tag : Option Str) (ia : Bool)
    (s : Store) : List.Sorted NoteLE (list_notes_rows search tag ia s) := by
  have hs := List.sorted_insertionSort NoteLE
    (archivedFilter ia (searchFilter search s.notes))
  unfold list_notes_rows tagFilter
  match tag with
  | none => exact hs
  | some t =>
    by_cases ht : t = []
    · simpa [ht] using hs
    · simp only [if_neg ht]
      exact hs.filter _

theorem mem_of_mem_tagFilter (tag : Option Str) (l : List Note) (n : Note)
    (h : n ∈ tagFilter tag l) : n ∈ l := by
  cases tag with
  | none => exact h
  | some t =>
    by_cases ht : t = []
    · simpa [tagFilter, ht] using h
    · simp only [tagFilter, if_neg ht] at h
      exact List.mem_of_mem_filter h

/-- C7: for every store, (1) the listing is ordered pinned-first, id
descending within each pinned group; (2) with `include_archived = false`
archived notes are excluded whatever the other filters are; (3) a
nonempty `tag` narrows the no-tag result to exactly the notes whose
parsed tag list contains the normalized tag, as a final pass. -/
theorem c7_list_order_and_filters (s : Store) :
    (∀ (search tag : Option Str) (ia : Bool),
      List.Sorted NoteLE (list_notes_rows search tag ia s)) ∧
    (∀ (search tag : Option Str), ∀ n ∈ list_notes_rows search tag false s,
      n.archived = false) ∧
    (∀ (search : Option Str) (t : Str) (ia : Bool), t ≠ [] →
      list_notes_rows search (some t) ia s =
        (list_notes_rows search none ia s).filter
          (fun n => pyLower (pyStrip t) ∈ parse_tags n.tags_text)) := by
  refine ⟨fun search tag ia => sorted_list_notes_rows search tag ia s,
    ?_, ?_⟩
  · intro search tag n hn
    have h1 : n ∈ (archivedFilter false (searchFilter search s.notes)).insertionSort
        NoteLE := mem_of_mem_tagFilter tag _ n hn
    have h2 : n ∈ archivedFilter false (searchFilter search s.notes) :=
      (List.mem_insertionSort NoteLE).mp h1
    have h3 : n ∈ searchFilter search s.notes ∧ n.archived = false := by
      simpa [archivedFilter, List.mem_filter] using h2
    exact h3.2
  · intro search t ia ht
    simp [list_notes_rows, tagFilter, ht]

/-- Witness for `c7_list_order_and_filters`: the tag narrowing at
`tag = "ops"` on `storeArch`. -/
theorem c7_list_order_and_filters_witness :
    list_notes_rows none (some (str "ops")) true storeArch =
      (list_notes_rows none none true storeArch).filter
        (fun n => pyLower (pyStrip (str "ops")) ∈ parse_tags n.tags_text) :=
  (c7_list_order_and_filters storeArch).2.2 none (str "ops") true (by decide)

/-! ## C8: the search filter versus literal substring match -/

theorem startsWith_nil_right (p : Str) : startsWith p [] = p.isEmpty := by
  cases p <;> rfl

theorem containsSub_nil_left (h : Str) : containsSub [] h = true := by
  cases h <;> simp [containsSub, startsWith]

theorem likeMatch_percent_cons (ps s : Str) :
    likeMatch ('%' :: ps) s = tryTails (likeMatch ps) s := rfl

theorem likeMatch_lit_nil (p : Char) (hp1 : p ≠ '%') (ps : Str) :
    likeMatch (p :: ps) [] = false := by
  simp [likeMatch, hp1]

theorem likeMatch_lit_cons (p : Char) (hp1 : p ≠ '%') (ps : Str)
    (c : Char) (cs : Str) :
    likeMatch (p :: ps) (c :: cs) =
      if p = '_' then likeMatch ps cs
      else decide (p = c) && likeMatch ps cs := by
  simp [likeMatch, hp1]

theorem likeMatch_percent_any (h : Str) : likeMatch ['%'] h = true := by
  induction h with
  | nil => rfl
  | cons c cs ih =>
    rw [likeMatch_percent_cons, tryTails, ← likeMatch_percent_cons, ih,
      Bool.or_true]

theorem likeMatch_literal_append_percent :
    ∀ (p : Str), (∀ c ∈ p, c ≠ '%' ∧ c ≠ '_') → ∀ (h : Str),
      likeMatch (p ++ ['%']) h = startsWith p h
  | [], _, h => by simp [startsWith, likeMatch_percent_any]
  | a :: p', hp, [] => by
    obtain ⟨ha1, _⟩ := hp a (by simp)
    rw [List.cons_append, likeMatch_lit_nil a ha1]
    rfl
  | a :: p', hp, c :: cs => by
    obtain ⟨ha1, ha2⟩ := hp a (by simp)
    rw [List.cons_append, likeMatch_lit_cons a ha1, if_neg ha2,
      likeMatch_literal_append_percent p' (fun x hx => hp x (by simp [hx])) cs]
    rfl

theorem tryTails_congr (f g : Str → Bool) (hfg : ∀ x, f x = g x) :
    ∀ s, tryTails f s = tryTails g s
  | [] => by rw [tryTails, tryTails, hfg]
  | c :: cs => by rw [tryTails, tryTails, hfg, tryTails_congr f g hfg cs]

theorem tryTails_startsWith (p : Str) :
    ∀ h, tryTails (startsWith p) h = containsSub p h
  | [] => by rw [tryTails, containsSub, startsWith_nil_right]
  | c :: cs => by rw [tryTails, containsSub, tryTails_startsWith p cs]

theorem likeMatch_percent_wrap (p : Str)
    (hp : ∀ c ∈ p, c ≠ '%' ∧ c ≠ '_') (h : Str) :
    likeMatch ('%' :: (p ++ ['%'])) h = containsSub p h := by
  rw [likeMatch_percent_cons,
    tryTails_congr (likeMatch (p ++ ['%'])) (startsWith p)
      (likeMatch_literal_append_percent p hp) h,
    tryTails_startsWith]

/-- C8, counterexample: searching for `"%"` (a `LIKE` wildcard) returns
`noteHay` even though none of its fields contains `"%"` as a substring —
the code passes the raw search text into a `LIKE` pattern, so `%` and
`_` act as wildcards, not as literal substring characters. -/
theorem c8_search_substring_cex :
    list_notes_rows (some (str "%")) none true storeHay = [noteHay] ∧
    containsSub (str "%") noteHay.title = false ∧
    containsSub (str "%") noteHay.body = false ∧
    containsSub (str "%") noteHay.tags_text = false := by decide

/-- C8, amended: for every search string that is already stripped and
contains no `LIKE` wildcard character (`%` or `_`), the listing keeps
exactly the notes (among those the other filters keep) whose title,
body, or serialized tag string contains the search string as a
substring. -/
theorem c8_search_substring (q : Str) (hq : pyStrip q = q)
    (hw : ∀ c ∈ q, c ≠ '%' ∧ c ≠ '_') (tag : Option Str) (ia : Bool)
    (s : Store) (n : Note) :
    n ∈ list_notes_rows (some q) tag ia s ↔
      n ∈ list_notes_rows none tag ia s ∧
        (containsSub q n.title || containsSub q n.body ||
          containsSub q n.tags_text) = true := by
  obtain ⟨Q, hQ⟩ : ∃ Q : Note → Prop, ∀ (l' : List Note) (m : Note),
      m ∈ tagFilter tag l' ↔ m ∈ l' ∧ Q m := by
    cases tag with
    | none => exact ⟨fun _ => True, by simp [tagFilter]⟩
    | some t =>
      by_cases ht : t = []
      · exact ⟨fun _ => True, by simp [tagFilter, ht]⟩
      · exact ⟨fun m => pyLower (pyStrip t) ∈ parse_tags m.tags_text,
          by simp [tagFilter, ht, List.mem_filter]⟩
  obtain ⟨A, hA⟩ : ∃ A : Note → Prop, ∀ (l' : List Note) (m : Note),
      m ∈ archivedFilter ia l' ↔ m ∈ l' ∧ A m := by
    cases ia with
    | true => exact ⟨fun _ => True, by simp [archivedFilter]⟩
    | false => exact ⟨fun m => m.archived = false,
        by simp [archivedFilter, List.mem_filter]⟩
  by_cases hq0 : q = []
  · have heq : list_notes_rows (some []) tag ia s =
        list_notes_rows none tag ia s := by
      simp [list_notes_rows, searchFilter]
    subst hq0
    rw [heq]
    simp [containsSub_nil_left]
  · have hlike : ∀ h : Str,
        likeMatch ('%' :: (pyStrip q ++ ['%'])) h = containsSub q h := by
      intro h
      rw [hq, likeMatch_percent_wrap q hw]
    constructor
    · intro hn
      rw [list_notes_rows, hQ, List.mem_insertionSort, hA] at hn
      obtain ⟨⟨hmem, hAn⟩, hQn⟩ := hn
      rw [searchFilter, if_neg hq0, List.mem_filter] at hmem
      obtain ⟨hbase, hpred⟩ := hmem
      refine ⟨?_, ?_⟩
      · rw [list_notes_rows, hQ, List.mem_insertionSort, hA]
        exact ⟨⟨hbase, hAn⟩, hQn⟩
      · simpa [hlike] using hpred
    · intro ⟨hn, hsub⟩
      rw [list_notes_rows, hQ, List.mem_insertionSort, hA] at hn
      obtain ⟨⟨hbase, hAn⟩, hQn⟩ := hn
      rw [list_notes_rows, hQ, List.mem_insertionSort, hA]
      refine ⟨⟨?_, hAn⟩, hQn⟩
      rw [searchFilter, if_neg hq0, List.mem_filter]
      exact ⟨hbase, by simpa [hlike] using hsub⟩

/-- Witness for `c8_search_substring`: searching `"a"` on `storeHay`. -/
theorem c8_search_substring_witness :
    noteHay ∈ list_notes_rows (some (str "a")) none true storeHay ↔
      noteHay ∈ list_notes_rows none none true storeHay ∧
        (containsSub (str "a") noteHay.title ||
          containsSub (str "a") noteHay.body ||
          containsSub (str "a") noteHay.tags_text) = true :=
  c8_search_substring (str "a") (by decide) (by decide) none true storeHay
    noteHay

/-! ## C1, C2: the upload size ceiling and blob/row atomicity -/

theorem stream_loop_ok (limit : Nat) :
    ∀ (chunks : List (List Nat)) (size : Nat) (written : List Nat),
      (∀ c ∈ chunks, c ≠ []) →
      size + (chunks.map List.length).sum ≤ limit →
      stream_loop limit size written chunks =
        .ok (size + (chunks.map List.length).sum, written ++ chunks.flatten)
  | [], size, written, _, _ => by simp [stream_loop]
  | c :: rest, size, written, hne, hle => by
    have hc : c ≠ [] := hne c (by simp)
    simp only [List.map_cons, List.sum_cons] at hle ⊢
    have hsum : size + c.length + (rest.map List.length).sum ≤ limit := by
      omega
    rw [stream_loop, if_neg hc, if_neg (by omega : ¬ limit < size + c.length),
      stream_loop_ok limit rest (size + c.length) (written ++ c)
        (fun x hx => hne x (by simp [hx])) hsum]
    simp [Nat.add_assoc]

theorem stream_loop_err (limit : Nat) :
    ∀ (chunks : List (List Nat)) (size : Nat) (written : List Nat),
      (∀ c ∈ chunks, c ≠ []) →
      written.length = size → size ≤ limit →
      limit < size + (chunks.map List.length).sum →
      ∃ w : List Nat,
        stream_loop limit size written chunks = .error w ∧ w.length ≤ limit
  | [], size, written, _, _, hs, hgt => by
    exact absurd hgt (by simpa using Nat.not_lt.mpr hs)
  | c :: rest, size, written, hne, hw, hs, hgt => by
    have hc : c ≠ [] := hne c (by simp)
    simp only [List.map_cons, List.sum_cons] at hgt
    by_cases hover : limit < size + c.length
    · exact ⟨written, by rw [stream_loop, if_neg hc, if_pos hover],
        by omega⟩
    · obtain ⟨w, hws, hwl⟩ := stream_loop_err limit rest (size + c.length)
        (written ++ c) (fun x hx => hne x (by simp [hx]))
        (by simp [hw]) (by omega) (by omega)
      exact ⟨w, by rw [stream_loop, if_neg hc, if_neg hover, hws], hwl⟩

theorem stream_loop_written_le (limit : Nat) :
    ∀ (chunks : List (List Nat)) (size : Nat) (written : List Nat),
      written.length = size → size ≤ limit →
      (writtenOf (stream_loop limit size written chunks)).length ≤ limit
  | [], size, written, hw, hs => by
    rw [stream_loop]
    simpa [writtenOf, hw] using hs
  | c :: rest, size, written, hw, hs => by
    by_cases hc : c = []
    · rw [stream_loop, if_pos hc]
      simpa [writtenOf, hw] using hs
    · by_cases hover : limit < size + c.length
      · rw [stream_loop, if_neg hc, if_pos hover]
        simpa [writtenOf, hw] using hs
      · rw [stream_loop, if_neg hc, if_neg hover]
        exact stream_loop_written_le limit rest (size + c.length)
          (written ++ c) (by simp [hw]) (by omega)

/-- C1: with an existing note and a nonempty sanitized filename, and the
body delivered in nonempty reads: a body totalling exactly the ceiling
uploads successfully (with `size_bytes = limit`); a body exceeding the
ceiling fails with 413 and leaves no blob of this upload's storage name
on disk, whatever the commit oracle; and after any number of reads the
bytes written to the blob file never exceed the ceiling. -/
theorem c1_upload_size_ceiling (limit : Nat) (tok : Str) (note_id : Nat)
    (filename ctype : Str) (chunks : List (List Nat)) (s : Store) (n : Note)
    (hf : findNote s note_id = some n) (hb : basename filename ≠ [])
    (hne : ∀ c ∈ chunks, c ≠ []) :
    ((chunks.map List.length).sum = limit →
      (upload_attachment limit tok true note_id filename ctype chunks s).1 =
        .ok { id := s.next_attachment_id, note_id := note_id,
              filename := basename filename,
              storage_name := tok ++ '-' :: basename filename,
              content_type :=
                if ctype = [] then str "application/octet-stream" else ctype,
              size_bytes := limit }) ∧
    (limit < (chunks.map List.length).sum → ∀ commitOk : Bool,
      (upload_attachment limit tok commitOk note_id filename ctype chunks s).1 =
          .error .payloadTooLarge ∧
      ∀ b ∈ ((upload_attachment limit tok commitOk note_id filename ctype
          chunks s).2).blobs,
        b.name ≠ tok ++ '-' :: basename filename) ∧
    (∀ k : Nat,
      (writtenOf (stream_loop limit 0 [] (chunks.take k))).length ≤ limit) := by
  refine ⟨?_, ?_, ?_⟩
  · intro htot
    have hok := stream_loop_ok limit chunks 0 [] hne (by omega)
    simp only [Nat.zero_add, List.nil_append] at hok
    simp [upload_attachment, hf, hb, hok, htot]
  · intro hover commitOk
    obtain ⟨w, hws, hwl⟩ :=
      stream_loop_err limit chunks 0 [] hne rfl (Nat.zero_le _) (by omega)
    constructor
    · simp [upload_attachment, hf, hb, hws]
    · intro b hbmem
      simp only [upload_attachment, hf, hb, hws, blobDelete] at hbmem
      have h2 : b ∈ s.blobs ∧ ¬ b.name = tok ++ '-' :: basename filename := by
        simpa using hbmem
      exact h2.2
  · intro k
    exact stream_loop_written_le limit (chunks.take k) 0 [] rfl (Nat.zero_le _)

/-- Witness for `c1_upload_size_ceiling`: a 3-byte body against a
ceiling of 3 uploads successfully. -/
theorem c1_upload_size_ceiling_witness :
    (upload_attachment 3 (str "tk") true 1 (str "f.bin") (str "text/plain")
        [[1, 2], [3]] storeAct).1 =
      .ok { id := storeAct.next_attachment_id, note_id := 1,
            filename := basename (str "f.bin"),
            storage_name := str "tk" ++ '-' :: basename (str "f.bin"),
            content_type :=
              if str "text/plain" = [] then str "application/octet-stream"
              else str "text/plain",
            size_bytes := 3 } :=
  (c1_upload_size_ceiling 3 (str "tk") 1 (str "f.bin") (str "text/plain")
      [[1, 2], [3]] storeAct noteAct (by decide) (by decide) (by decide)).1 rfl

/-- C2: when the blob write completes (`stream_loop` returns `.ok`) but
the metadata commit fails, the upload propagates `storageFailure`, the
just-written blob is deleted (no blob of this upload's storage name
remains), and no attachment row is added; when the commit succeeds, the
store holds exactly one blob and exactly one metadata row for the
upload's storage name (given the unique constraint: no pre-existing row
with that storage name). -/
theorem c2_upload_blob_row_atomicity (limit : Nat) (tok : Str)
    (note_id : Nat) (filename ctype : Str) (chunks : List (List Nat))
    (s : Store) (n : Note) (sz : Nat) (content : List Nat)
    (hf : findNote s note_id = some n) (hb : basename filename ≠ [])
    (hstream : stream_loop limit 0 [] chunks = .ok (sz, content)) :
    ((upload_attachment limit tok false note_id filename ctype chunks s).1 =
        .error .storageFailure ∧
      (∀ b ∈ ((upload_attachment limit tok false note_id filename ctype
          chunks s).2).blobs, b.name ≠ tok ++ '-' :: basename filename) ∧
      ((upload_attachment limit tok false note_id filename ctype
          chunks s).2).attachments = s.attachments) ∧
    ((∀ a ∈ s.attachments, a.storage_name ≠ tok ++ '-' :: basename filename) →
      (∃ att, (upload_attachment limit tok true note_id filename ctype
          chunks s).1 = .ok att ∧
        att.storage_name = tok ++ '-' :: basename filename) ∧
      ((upload_attachment limit tok true note_id filename ctype
          chunks s).2).blobs.filter
          (fun b => b.name = tok ++ '-' :: basename filename) =
        [{ name := tok ++ '-' :: basename filename, content := content }] ∧
      (((upload_attachment limit tok true note_id filename ctype
          chunks s).2).attachments.filter
          (fun a => a.storage_name = tok ++ '-' :: basename filename)).length
        = 1) := by
  refine ⟨⟨?_, ?_, ?_⟩, ?_⟩
  · simp [upload_attachment, hf, hb, hstream]
  · intro b hbmem
    simp only [upload_attachment, hf, hb, hstream, blobWrite,
      blobDelete] at hbmem
    have h2 : b ∈ s.blobs ∧ ¬ b.name = tok ++ '-' :: basename filename := by
      simpa [List.mem_filter, List.mem_append] using hbmem
    exact h2.2
  · simp [upload_attachment, hf, hb, hstream]
  · intro hnor
    have hred : upload_attachment limit tok true note_id filename ctype
        chunks s =
        (.ok { id := s.next_attachment_id, note_id := note_id,
               filename := basename filename,
               storage_name := tok ++ '-' :: basename filename,
               content_type :=
                 if ctype = [] then str "application/octet-stream" else ctype,
               size_bytes := sz },
         { s with
           blobs := blobWrite s.blobs (tok ++ '-' :: basename filename) content
           attachments := s.attachments ++
             [{ id := s.next_attachment_id, note_id := note_id,
                filename := basename filename,
                storage_name := tok ++ '-' :: basename filename,
                content_type :=
                  if ctype = [] then str "application/octet-stream" else ctype,
                size_bytes := sz }]
           next_attachment_id := s.next_attachment_id + 1 }) := by
      simp [upload_attachment, hf, hb, hstream]
    rw [hred]
    refine ⟨⟨_, rfl, rfl⟩, ?_, ?_⟩
    · rw [blobWrite, blobDelete, List.filter_append]
      have h1 : ((s.blobs.filter
            (fun b => b.name ≠ tok ++ '-' :: basename filename)).filter
          (fun b => b.name = tok ++ '-' :: basename filename)) = [] := by
        rw [List.filter_filter]
        exact List.filter_eq_nil_iff.mpr
          (fun a _ => by by_cases h : a.name = tok ++ '-' :: basename filename <;>
            simp [h])
      rw [h1]
      simp
    · rw [List.filter_append]
      have h1 : s.attachments.filter
          (fun a => a.storage_name = tok ++ '-' :: basename filename) = [] :=
        List.filter_eq_nil_iff.mpr (fun a ha => by simpa using hnor a ha)
      rw [h1]
      simp

/-- Witness for `c2_upload_blob_row_atomicity`: a successful 2-byte
upload into `storeAct` leaves exactly the one expected blob. -/
theorem c2_upload_blob_row_atomicity_witness :
    ((upload_attachment 3 (str "tk") true 1 (str "f.bin") (str "ct")
        [[1, 2]] storeAct).2).blobs.filter
        (fun b => b.name = str "tk" ++ '-' :: basename (str "f.bin")) =
      [{ name := str "tk" ++ '-' :: basename (str "f.bin"), content := [1, 2] }] :=
  ((c2_upload_blob_row_atomicity 3 (str "tk") 1 (str "f.bin") (str "ct")
      [[1, 2]] storeAct noteAct 2 [1, 2] (by decide) (by decide)
      rfl).2 (by decide)).2.1

/-! ## C3, C10: purge cascades and touches only the purged note -/

/-- C3: purging an absent note fails `notFound` and changes nothing;
purging an existing note removes all of its attachment rows, all of its
history rows, the note row, and every blob of its attachments, and a
subsequent fetch of any of its former attachment ids (under the primary
key's uniqueness of attachment ids) returns `notFound`. -/
theorem c3_purge_cascade (s : Store) (note_id : Nat) :
    (findNote s note_id = none → purge_note note_id s = (.error .notFound, s)) ∧
    (∀ n : Note, findNote s note_id = some n →
      (purge_note note_id s).1 = .ok note_id ∧
      (∀ a ∈ ((purge_note note_id s).2).attachments, a.note_id ≠ note_id) ∧
      (∀ h ∈ ((purge_note note_id s).2).history, h.note_id ≠ note_id) ∧
      findNote ((purge_note note_id s).2) note_id = none ∧
      (∀ a ∈ s.attachments, a.note_id = note_id →
        ∀ b ∈ ((purge_note note_id s).2).blobs, b.name ≠ a.storage_name) ∧
      ((s.attachments.map (fun a => a.id)).Nodup →
        ∀ a ∈ s.attachments, a.note_id = note_id →
          download_attachment a.id ((purge_note note_id s).2) =
            .error .notFound)) := by
  constructor
  · intro hnone
    simp [purge_note, hnone]
  · intro n hf
    have hnid : n.id = note_id := by simpa using List.find?_some hf
    refine ⟨by simp [purge_note, hf], ?_, ?_, ?_, ?_, ?_⟩
    · intro a ha
      simp only [purge_note, hf] at ha
      exact (by simpa using (List.mem_filter.mp ha).2 : ¬ a.note_id = note_id)
    · intro h hh
      simp only [purge_note, hf] at hh
      exact (by simpa using (List.mem_filter.mp hh).2 : ¬ h.note_id = note_id)
    · simp only [purge_note, hf]
      simp only [findNote]
      refine List.find?_eq_none.mpr ?_
      intro m hm
      have : ¬ m.id = n.id := by simpa using (List.mem_filter.mp hm).2
      simpa [hnid] using this
    · intro a ha hanid b hb
      simp only [purge_note, hf] at hb
      have hnotin : b.name ∉ (s.attachments.filter
          (fun a => a.note_id = note_id)).map (fun a => a.storage_name) := by
        simpa using (List.mem_filter.mp hb).2
      intro heq
      exact hnotin (List.mem_map.mpr
        ⟨a, List.mem_filter.mpr ⟨ha, by simpa using hanid⟩, heq.symm⟩)
    · intro hids a ha hanid
      simp only [purge_note, hf, download_attachment, findAttachment]
      have hnone : ((s.attachments.filter
          (fun x => x.note_id ≠ note_id)).find? (fun x => x.id = a.id)) = none := by
        refine List.find?_eq_none.mpr ?_
        intro m hm
        obtain ⟨hmem, hmne⟩ := List.mem_filter.mp hm
        intro hid
        have : m = a := List.inj_on_of_nodup_map hids hmem ha
          (by simpa using hid)
        rw [this] at hmne
        simp [hanid] at hmne
      rw [hnone]

/-- Witness for `c3_purge_cascade`: purging note 1 of `storePurge`
succeeds, removes the note row, and makes its former attachment id 1
fetch as `notFound`. -/
theorem c3_purge_cascade_witness :
    (purge_note 1 storePurge).1 = .ok 1 ∧
    findNote ((purge_note 1 storePurge).2) 1 = none ∧
    download_attachment 1 ((purge_note 1 storePurge).2) = .error .notFound := by
  have h := (c3_purge_cascade storePurge 1).2 noteAct (by decide)
  exact ⟨h.1, h.2.2.2.1,
    h.2.2.2.2.2 (by decide) attPurge (by decide) (by decide)⟩

/-- C10: purge touches only the purged note: a row (note, attachment, or
history) survives exactly when it does not belong to the purged note id,
and — under the unique constraint on `storage_name` — every blob of an
attachment of a different note survives. -/
theorem c10_purge_frame (s : Store) (note_id : Nat) (n : Note)
    (hf : findNote s note_id = some n) :
    (∀ m : Note, m ∈ ((purge_note note_id s).2).notes ↔
      m ∈ s.notes ∧ m.id ≠ note_id) ∧
    (∀ a : Attachment, a ∈ ((purge_note note_id s).2).attachments ↔
      a ∈ s.attachments ∧ a.note_id ≠ note_id) ∧
    (∀ h : NoteHistory, h ∈ ((purge_note note_id s).2).history ↔
      h ∈ s.history ∧ h.note_id ≠ note_id) ∧
    ((s.attachments.map (fun a => a.storage_name)).Nodup →
      ∀ (j : Nat) (a : Attachment), a ∈ s.attachments → a.note_id = j →
        j ≠ note_id → ∀ b ∈ s.blobs, b.name = a.storage_name →
          b ∈ ((purge_note note_id s).2).blobs) := by
  have hnid : n.id = note_id := by simpa using List.find?_some hf
  refine ⟨?_, ?_, ?_, ?_⟩
  · intro m
    simp only [purge_note, hf]
    simp [List.mem_filter, hnid]
  · intro a
    simp only [purge_note, hf]
    simp [List.mem_filter]
  · intro h
    simp only [purge_note, hf]
    simp [List.mem_filter]
  · intro hnames j a ha haj hj b hb hbn
    simp only [purge_note, hf]
    refine List.mem_filter.mpr ⟨hb, ?_⟩
    simp only [decide_eq_true_eq]
    intro hmem
    obtain ⟨a', ha', heq⟩ := List.mem_map.mp hmem
    obtain ⟨ha'mem, ha'nid⟩ := List.mem_filter.mp ha'
    have : a' = a := List.inj_on_of_nodup_map hnames ha'mem ha
      (by rw [heq, hbn])
    rw [this] at ha'nid
    simp [haj, hj] at ha'nid

/-- Witness for `c10_purge_frame`: purging note 1 of `storePurge` keeps
note 2's row and note 2's blob. -/
theorem c10_purge_frame_witness :
    (notePre ∈ ((purge_note 1 storePurge).2).notes ↔
      notePre ∈ storePurge.notes ∧ notePre.id ≠ 1) ∧
    ({ name := str "sm", content := [8] } : Blob) ∈
      ((purge_note 1 storePurge).2).blobs := by
  have h := c10_purge_frame storePurge 1 noteAct (by decide)
  exact ⟨h.1 notePre,
    h.2.2.2 (by decide) 2 attKeep (by decide) (by decide) (by decide) _
      (by decide) (by decide)⟩

end NotesApp
